import Mathlib

/-!
Verification development for the Lis-German-Coach repository (src/main.py,
src/app.py).  The definitions below are a shallow embedding of the
orchestration / parsing core of `src/main.py`:

* the `re.search`-based field and score extraction (`parse_vocab_score`,
  `parse_exam_score`, `parse_exam_level`, and the inline
  `re.search(r"WORD:\s*(.+)", task)`-style field extraction, abstracted over
  the tag name as the spec's `extractField`);
* `normalize_level`;
* the `PROGRESS` session-statistics dictionary and its updates;
* one iteration of the interactive mode loops (`vocab_mode`,
  `listening_mode` / `reading_mode` / `writing_mode` / `speaking_mode`),
  with the oracle call (`chat_with_ai`) modelled as a value that is either
  a returned text or an `OracleUnavailable` failure, and the terminal
  `input(...)` modelled as the raw string the user typed.

Python regular-expression semantics are embedded operationally: `re.search`
scans start positions left to right; `\s*` is greedy with backtracking;
alternation is ordered; `.` does not match a newline; `\d` / `\s` are the
character classes Python uses for `str` patterns.
-/

namespace GermanCoach

/-- Python's `\s` character class for `str` patterns (also the set stripped
by `str.strip()`): ASCII whitespace, the file/group/record/unit separators,
NEL, NBSP, and the Unicode space separators. -/
def pyWs (c : Char) : Bool :=
  c == ' ' || c == '\t' || c == '\n' || c == '\r' || c == '\x0b' || c == '\x0c' ||
  c == '\x1c' || c == '\x1d' || c == '\x1e' || c == '\x1f' || c == '\x85' || c == '\xa0' ||
  c == '\u1680' || c == '\u2000' || c == '\u2001' || c == '\u2002' || c == '\u2003' ||
  c == '\u2004' || c == '\u2005' || c == '\u2006' || c == '\u2007' || c == '\u2008' ||
  c == '\u2009' || c == '\u200a' || c == '\u2028' || c == '\u2029' || c == '\u202f' ||
  c == '\u205f' || c == '\u3000'

/-- Python `str.strip()`: remove leading and trailing whitespace. -/
def pyStrip (cs : List Char) : List Char :=
  ((cs.dropWhile pyWs).reverse.dropWhile pyWs).reverse

/-- `str.strip()` on `String`s. -/
def pyStripStr (s : String) : String :=
  String.mk (pyStrip s.data)

/-- Python `str.upper()` (per-character uppercasing; the repository only
ever uppercases ASCII level names such as "b2"). -/
def pyUpper (s : String) : String :=
  String.mk (s.data.map Char.toUpper)

/-- Python `str.lower()` (per-character lowercasing; the repository only
ever lowercases the typed answer before the sentinel comparison). -/
def pyLower (s : String) : String :=
  String.mk (s.data.map Char.toLower)

/-- The regex fragment `(.+)` at the current position: `.` does not match
`'\n'`, `+` is greedy, so the group is the maximal nonempty run of
non-newline characters starting here; it fails on a newline or at the end
of the input. -/
def dotPlusAt (cs : List Char) : Option (List Char) :=
  match cs with
  | [] => none
  | c :: _ => if c == '\n' then none else some (cs.takeWhile (fun a => a != '\n'))

/-- The regex fragment `\s*` followed by a sub-matcher `k`, with Python's
greedy-plus-backtracking semantics: consume a whitespace character and try
the rest greedily; on failure, back off and hand the unconsumed input to
`k`. -/
def wsStarThen (k : List Char → Option (List Char)) : List Char → Option (List Char)
  | [] => k []
  | c :: rest =>
    if pyWs c then
      match wsStarThen k rest with
      | some v => some v
      | none => k (c :: rest)
    else k (c :: rest)

/-- `re.search` for a pattern of the form `<pat><tail>`: try each start
position from the left; at a position where the literal `pat` matches, run
the tail matcher `k` on the remainder; if the tail fails, keep scanning. -/
def reSearch (pat : List Char) (k : List Char → Option (List Char)) :
    List Char → Option (List Char)
  | [] => none
  | c :: rest =>
    if pat.isPrefixOf (c :: rest) then
      match k (List.drop pat.length (c :: rest)) with
      | some v => some v
      | none => reSearch pat k rest
    else reSearch pat k rest

/-- Does the literal `pat` occur (as a contiguous sublist) in `text`? -/
def containsPat (pat : List Char) : List Char → Bool
  | [] => pat.isEmpty
  | c :: rest => pat.isPrefixOf (c :: rest) || containsPat pat rest

/-- The spec's `extractField(text, tagName)`: embedding of the inline
`re.search(rf"TAG:\s*(.+)", text)` + `.group(1).strip()` used in
`vocab_mode` (src/main.py lines 182-185 for `WORD:` / `SENTENCE:` and
218-221 for `WORD:` / `HINT:`), abstracted over the tag name.  `absent` is
`none`; on a match the captured group is returned stripped, exactly as the
call sites do. -/
def extractField (text : String) (tag : String) : Option String :=
  (reSearch (tag.data ++ [':']) (wsStarThen dotPlusAt) text.data).map
    (fun v => String.mk (pyStrip v))

/-- The ordered alternation `(correct|partially_correct|incorrect)` at the
current position (Python tries alternatives left to right, each as a plain
literal with no word boundary). -/
def vocabAltsAt (cs : List Char) : Option (List Char) :=
  if ("correct".data).isPrefixOf cs then some ("correct".data)
  else if ("partially_correct".data).isPrefixOf cs then some ("partially_correct".data)
  else if ("incorrect".data).isPrefixOf cs then some ("incorrect".data)
  else none

/-- `parse_vocab_score` (src/main.py lines 74-82):
`re.search(r"SCORE:\s*(correct|partially_correct|incorrect)", feedback)`,
returning the captured group or `None`. -/
def parse_vocab_score (feedback : String) : Option String :=
  (reSearch ("SCORE:".data) (wsStarThen vocabAltsAt) feedback.data).map String.mk

/-- The regex fragment `(\d+/\d+)` at the current position: a maximal
nonempty digit run, a slash, a maximal nonempty digit run.  (`\d+` is
greedy; backing it off cannot help because a shorter run ends on a digit,
never on `'/'`.) -/
def fracAt (cs : List Char) : Option (List Char) :=
  let d1 := cs.takeWhile Char.isDigit
  if d1 = [] then none
  else
    match cs.drop d1.length with
    | '/' :: rest2 =>
      let d2 := rest2.takeWhile Char.isDigit
      if d2 = [] then none else some (d1 ++ '/' :: d2)
    | _ => none

/-- `parse_exam_score` (src/main.py lines 85-91):
`re.search(r"SCORE:\s*(\d+/\d+)", feedback)`, returning the captured group
(the literal `"X/Y"` text) or `None`. -/
def parse_exam_score (feedback : String) : Option String :=
  (reSearch ("SCORE:".data) (wsStarThen fracAt) feedback.data).map String.mk

/-- The numeric value of a digit string (usual base-10 reading). -/
def digitsToNat (ds : List Char) : Nat :=
  ds.foldl (fun n c => n * 10 + (c.toNat - 48)) 0

/-- The spec's `parseExamFraction(text) -> (numerator, denominator) | absent`.
The code's `parse_exam_score` returns the matched `"X/Y"` text; the spec
abstracts that as the pair of its two integers.  This wrapper reads the two
digit runs of the returned group. -/
def parseExamFraction (text : String) : Option (Nat × Nat) :=
  match parse_exam_score text with
  | none => none
  | some s =>
    let d1 := s.data.takeWhile Char.isDigit
    let d2 := (s.data.drop (d1.length + 1)).takeWhile Char.isDigit
    some (digitsToNat d1, digitsToNat d2)

/-- The ordered alternation `(B1|B2|C1)` at the current position. -/
def levelAltsAt (cs : List Char) : Option (List Char) :=
  if ("B1".data).isPrefixOf cs then some ("B1".data)
  else if ("B2".data).isPrefixOf cs then some ("B2".data)
  else if ("C1".data).isPrefixOf cs then some ("C1".data)
  else none

/-- `parse_exam_level` (src/main.py lines 94-102):
`re.search(r"LEVEL:\s*(B1|B2|C1)", feedback)`. -/
def parse_exam_level (feedback : String) : Option String :=
  (reSearch ("LEVEL:".data) (wsStarThen levelAltsAt) feedback.data).map String.mk

/-- `normalize_level` (src/main.py lines 107-114): uppercase, then map
`"A0"` to `"A1"`. -/
def normalize_level (level : String) : String :=
  let u := pyUpper level
  if u = "A0" then "A1" else u

/-- The `PROGRESS["vocab"]` counters (src/main.py lines 56-62).  The
source key `"partial"` is a reserved word in Lean and is rendered as
`partialCount`. -/
structure VocabStats where
  total : Nat
  correct : Nat
  partialCount : Nat
  incorrect : Nat
deriving DecidableEq

/-- The `PROGRESS["exam"]` counters (src/main.py lines 63-68). -/
structure ExamStats where
  listening_attempts : Nat
  reading_attempts : Nat
  writing_attempts : Nat
  speaking_attempts : Nat
deriving DecidableEq

/-- The whole `PROGRESS` dictionary (src/main.py lines 56-69). -/
structure Progress where
  vocab : VocabStats
  exam : ExamStats
deriving DecidableEq

/-- `PROGRESS` at process start: every counter is zero. -/
def initialProgress : Progress :=
  { vocab := { total := 0, correct := 0, partialCount := 0, incorrect := 0 },
    exam := { listening_attempts := 0, reading_attempts := 0,
              writing_attempts := 0, speaking_attempts := 0 } }

/-- The statistics update at the end of a vocabulary iteration
(src/main.py lines 255-268): `total` is incremented first, then the
feedback is parsed and exactly the matching bucket (if any) is
incremented. -/
def recordVocab (feedback : String) (p : Progress) : Progress :=
  let p1 : Progress := { p with vocab := { p.vocab with total := p.vocab.total + 1 } }
  let score := parse_vocab_score feedback
  if score = some "correct" then
    { p1 with vocab := { p1.vocab with correct := p1.vocab.correct + 1 } }
  else if score = some "partially_correct" then
    { p1 with vocab := { p1.vocab with partialCount := p1.vocab.partialCount + 1 } }
  else if score = some "incorrect" then
    { p1 with vocab := { p1.vocab with incorrect := p1.vocab.incorrect + 1 } }
  else p1

/-- The four exam exercise kinds (listening/reading/writing/speaking
modes of src/main.py). -/
inductive ExamKind where
  | listening
  | reading
  | writing
  | speaking
deriving DecidableEq

/-- The spec's `recordExamAttempt(kind)`: the unconditional
`PROGRESS["exam"][...] += 1` at src/main.py lines 334, 397, 458, 520. -/
def recordExamAttempt (k : ExamKind) (e : ExamStats) : ExamStats :=
  match k with
  | .listening => { e with listening_attempts := e.listening_attempts + 1 }
  | .reading => { e with reading_attempts := e.reading_attempts + 1 }
  | .writing => { e with writing_attempts := e.writing_attempts + 1 }
  | .speaking => { e with speaking_attempts := e.speaking_attempts + 1 }

/-- Read the attempt counter belonging to an exam kind. -/
def examCounter (k : ExamKind) (e : ExamStats) : Nat :=
  match k with
  | .listening => e.listening_attempts
  | .reading => e.reading_attempts
  | .writing => e.writing_attempts
  | .speaking => e.speaking_attempts

/-- Result of one `chat_with_ai` call (src/main.py lines 38-51): either the
returned text, or `OracleUnavailable` when the remote completion call
raises (the code has no try/except, so the exception propagates). -/
inductive Completion where
  | ok (text : String) : Completion
  | oracleUnavailable : Completion
deriving DecidableEq

/-- Outcome of one pass of a mode's `while True:` body: the loop continues
(carrying the answer text that was sent to the evaluation call and the
updated statistics), or the user exited via the sentinel (`break`), or an
oracle failure aborted the iteration (exception propagates out of the
mode function). -/
inductive IterOutcome where
  | continued (answer : String) (stats : Progress) : IterOutcome
  | exited (stats : Progress) : IterOutcome
  | failed (stats : Progress) : IterOutcome
deriving DecidableEq

/-- The exit-sentinel test `user_answer.lower() in ["q", "quit", "exit"]`
(src/main.py lines 190, 229, 311, 375, 434, 495). -/
def isExitSentinel (userAnswer : String) : Bool :=
  pyLower userAnswer = "q" || pyLower userAnswer = "quit" || pyLower userAnswer = "exit"

/-- One pass of the `vocab_mode` loop body (src/main.py lines 174-268),
for a fixed direction (both direction branches have identical control flow
and statistics effects).  `taskResp` is the task-generation oracle call,
`evalResp` the evaluation oracle call, `rawInput` what the user typed at
the answer prompt (the code applies `.strip()` to it).  Rendering and
prompt construction are I/O and carry no state. -/
def vocabIteration (taskResp evalResp : Completion) (rawInput : String)
    (p : Progress) : IterOutcome :=
  match taskResp with
  | .oracleUnavailable => .failed p
  | .ok _ =>
    let userAnswer := pyStripStr rawInput
    if isExitSentinel userAnswer then .exited p
    else
      match evalResp with
      | .oracleUnavailable => .failed p
      | .ok feedback => .continued userAnswer (recordVocab feedback p)

/-- One pass of the loop body of `listening_mode` / `reading_mode` /
`writing_mode` / `speaking_mode` (src/main.py lines 280-341, 351-404,
414-465, 476-527): generate a task, read the (stripped) answer, check the
exit sentinel, evaluate, then increment the kind's attempt counter
unconditionally (the parsed score/level is only printed). -/
def examIteration (k : ExamKind) (taskResp evalResp : Completion)
    (rawInput : String) (p : Progress) : IterOutcome :=
  match taskResp with
  | .oracleUnavailable => .failed p
  | .ok _ =>
    let userAnswer := pyStripStr rawInput
    if isExitSentinel userAnswer then .exited p
    else
      match evalResp with
      | .oracleUnavailable => .failed p
      | .ok _ => .continued userAnswer { p with exam := recordExamAttempt k p.exam }

/-- The vocabulary statistics after a session that completed the
evaluation of each feedback text in `fbs`, starting from process start. -/
def runVocab (fbs : List String) : Progress :=
  fbs.foldl (fun p fb => recordVocab fb p) initialProgress

/-! ## Helper lemmas about the scanning primitives -/

theorem isPrefixOf_append_self (l rest : List Char) : l.isPrefixOf (l ++ rest) = true := by
  induction l with
  | nil => simp
  | cons a as ih => simp [List.isPrefixOf_cons₂, ih]

theorem drop_length_append (l rest : List Char) : List.drop l.length (l ++ rest) = rest := by
  induction l with
  | nil => rfl
  | cons a as ih => simp [ih]

/-- If the pattern occurs nowhere in the text, the search fails. -/
theorem reSearch_eq_none (pat : List Char) (k : List Char → Option (List Char)) :
    ∀ text : List Char, containsPat pat text = false → reSearch pat k text = none := by
  intro text
  induction text with
  | nil => intro _; rfl
  | cons c rest ih =>
    intro h
    rw [containsPat, Bool.or_eq_false_iff] at h
    simp [reSearch, h.1, ih h.2]

/-- The search skips over a prefix in which the pattern starts nowhere. -/
theorem reSearch_append (pat : List Char) (k : List Char → Option (List Char)) :
    ∀ pre rest : List Char,
      (∀ i, i < pre.length → pat.isPrefixOf (List.drop i (pre ++ rest)) = false) →
      reSearch pat k (pre ++ rest) = reSearch pat k rest := by
  intro pre
  induction pre with
  | nil => intro rest _; rfl
  | cons c pre' ih =>
    intro rest h
    have h0 : pat.isPrefixOf (c :: (pre' ++ rest)) = false := by
      simpa using h 0 (by simp)
    rw [List.cons_append]
    rw [show reSearch pat k (c :: (pre' ++ rest)) = reSearch pat k (pre' ++ rest) by
      simp [reSearch, h0]]
    exact ih rest (fun i hi => by simpa using h (i + 1) (by simpa using Nat.succ_lt_succ hi))

/-- When the pattern matches at the current position and the tail matcher
succeeds on the remainder, the search returns that value. -/
theorem reSearch_at_head (pat : List Char) (k : List Char → Option (List Char))
    (rest v : List Char) (hpat : pat ≠ []) (hk : k rest = some v) :
    reSearch pat k (pat ++ rest) = some v := by
  cases pat with
  | nil => exact absurd rfl hpat
  | cons a pa =>
    have hpre := isPrefixOf_append_self (a :: pa) rest
    have hdrop := drop_length_append (a :: pa) rest
    rw [List.cons_append] at hpre hdrop ⊢
    simp [reSearch, hpre, hdrop, hk]

/-- Greedy `\s*`: all of `ws` is consumed when the remainder starts with a
non-whitespace character (or is empty) and the tail matcher succeeds there. -/
theorem wsStarThen_append (k : List Char → Option (List Char)) :
    ∀ ws rest v : List Char,
      (∀ c ∈ ws, pyWs c = true) →
      (rest = [] ∨ pyWs rest.headI = false) →
      k rest = some v →
      wsStarThen k (ws ++ rest) = some v := by
  intro ws
  induction ws with
  | nil =>
    intro rest v _ hrest hk
    rcases hrest with rfl | hh
    · simp [wsStarThen, hk]
    · cases rest with
      | nil => simp [wsStarThen, hk]
      | cons r rs =>
        simp only [List.headI] at hh
        simpa [wsStarThen, hh] using hk
  | cons w ws' ih =>
    intro rest v hws hrest hk
    have hw : pyWs w = true := hws w (by simp)
    have hrec := ih rest v (fun c hc => hws c (by simp [hc])) hrest hk
    simp [wsStarThen, hw, hrec]

/-- `takeWhile` consumes exactly `l` when everything in `l` satisfies the
predicate and the remainder immediately fails it. -/
theorem takeWhile_all_stop (p : Char → Bool) :
    ∀ l rest : List Char, (∀ c ∈ l, p c = true) → (rest = [] ∨ p rest.headI = false) →
      (l ++ rest).takeWhile p = l := by
  intro l
  induction l with
  | nil =>
    intro rest _ hrest
    rcases hrest with rfl | hh
    · rfl
    · cases rest with
      | nil => rfl
      | cons r rs =>
        simp only [List.headI] at hh
        simp [List.takeWhile_cons, hh]
  | cons a l' ih =>
    intro rest hl hrest
    have ha : p a = true := hl a (by simp)
    have := ih rest (fun c hc => hl c (by simp [hc])) hrest
    simp [List.takeWhile_cons, ha, this]

/-- `(.+)` captures up to the end of the line: a nonempty newline-free `v`
followed by nothing or a newline. -/
theorem dotPlusAt_eq (v post : List Char) (hv : v ≠ [])
    (hnl : ∀ c ∈ v, c ≠ '\n') (hpost : post = [] ∨ post.headI = '\n') :
    dotPlusAt (v ++ post) = some v := by
  cases v with
  | nil => exact absurd rfl hv
  | cons a v' =>
    have ha : (a == '\n') = false := by
      simpa using hnl a (by simp)
    have htake : ((a :: v') ++ post).takeWhile (fun x => x != '\n') = a :: v' := by
      refine takeWhile_all_stop _ (a :: v') post (fun c hc => by simpa using hnl c hc) ?_
      rcases hpost with rfl | hh
      · exact Or.inl rfl
      · exact Or.inr (by simp [hh])
    rw [List.cons_append] at htake ⊢
    simp [dotPlusAt, ha, htake]

/-- A nonempty literal that matches at the head pins down the head of the
text. -/
theorem exists_tail_of_isPrefixOf (a : Char) (l rest : List Char)
    (h : (a :: l).isPrefixOf rest = true) : ∃ t, rest = a :: t := by
  cases rest with
  | nil => simp [List.isPrefixOf] at h
  | cons b bs =>
    rw [List.isPrefixOf_cons₂, Bool.and_eq_true] at h
    exact ⟨bs, by rw [show a = b from by simpa using h.1]⟩

/-- Decimal digits are not Python whitespace. -/
theorem pyWs_eq_false_of_isDigit (c : Char) (h : c.isDigit = true) : pyWs c = false := by
  have hne : ∀ d : Char, d.isDigit = false → (c == d) = false := by
    intro d hd
    cases hcd : c == d
    · rfl
    · rw [beq_iff_eq] at hcd
      subst hcd
      rw [h] at hd
      simp at hd
  simp only [pyWs]
  rw [hne ' ' (by decide), hne '\t' (by decide), hne '\n' (by decide), hne '\r' (by decide),
    hne '\x0b' (by decide), hne '\x0c' (by decide), hne '\x1c' (by decide),
    hne '\x1d' (by decide), hne '\x1e' (by decide), hne '\x1f' (by decide),
    hne '\x85' (by decide), hne '\xa0' (by decide), hne '\u1680' (by decide),
    hne '\u2000' (by decide), hne '\u2001' (by decide), hne '\u2002' (by decide),
    hne '\u2003' (by decide), hne '\u2004' (by decide), hne '\u2005' (by decide),
    hne '\u2006' (by decide), hne '\u2007' (by decide), hne '\u2008' (by decide),
    hne '\u2009' (by decide), hne '\u200a' (by decide), hne '\u2028' (by decide),
    hne '\u2029' (by decide), hne '\u202f' (by decide), hne '\u205f' (by decide),
    hne '\u3000' (by decide)]
  rfl

/-- A literal whose first character differs from the head of the text does
not match at the head. -/
theorem isPrefixOf_cons_neq (a b : Char) (l t : List Char) (hne : (a == b) = false) :
    (a :: l).isPrefixOf (b :: t) = false := by
  rw [List.isPrefixOf_cons₂, hne, Bool.false_and]

/-- Composite search lemma: a pattern of the form `PAT\s*<k>` succeeds on
`pre ++ PAT ++ ws ++ rest` when `PAT` starts nowhere inside `pre`, `ws` is
whitespace, and `k` succeeds on `rest` (which must not start with more
whitespace, or the greedy `\s*` would have eaten it). -/
theorem reSearch_ws_tag (pat : List Char) (k : List Char → Option (List Char))
    (pre ws rest v : List Char) (hpat : pat ≠ [])
    (hpre : ∀ i, i < pre.length →
      pat.isPrefixOf (List.drop i (pre ++ (pat ++ (ws ++ rest)))) = false)
    (hws : ∀ c ∈ ws, pyWs c = true)
    (hrest : rest = [] ∨ pyWs rest.headI = false)
    (hk : k rest = some v) :
    reSearch pat (wsStarThen k) (pre ++ (pat ++ (ws ++ rest))) = some v := by
  rw [reSearch_append _ _ pre _ hpre]
  exact reSearch_at_head _ _ _ _ hpat (wsStarThen_append k ws rest v hws hrest hk)

/-- `(\d+/\d+)` at the head of `d1 ++ "/" ++ d2 ++ post`. -/
theorem fracAt_eq (d1 d2 post : List Char)
    (hd1 : d1 ≠ []) (hd1d : ∀ c ∈ d1, c.isDigit = true)
    (hd2 : d2 ≠ []) (hd2d : ∀ c ∈ d2, c.isDigit = true)
    (hpost : post = [] ∨ post.headI.isDigit = false) :
    fracAt (d1 ++ '/' :: (d2 ++ post)) = some (d1 ++ '/' :: d2) := by
  have ht1 : (d1 ++ '/' :: (d2 ++ post)).takeWhile Char.isDigit = d1 :=
    takeWhile_all_stop Char.isDigit d1 ('/' :: (d2 ++ post)) hd1d (Or.inr (by simp))
  have ht2 : (d2 ++ post).takeWhile Char.isDigit = d2 :=
    takeWhile_all_stop Char.isDigit d2 post hd2d hpost
  have hdrop : List.drop d1.length (d1 ++ '/' :: (d2 ++ post)) = '/' :: (d2 ++ post) :=
    drop_length_append d1 _
  simp only [fracAt, ht1, hdrop, ht2]
  rw [if_neg hd1, if_neg hd2]

/-- Case analysis on the vocabulary update: `total` always moves by one,
the exam counters never move, and at most one bucket moves by one. -/
theorem recordVocab_fields (fb : String) (p : Progress) :
    (recordVocab fb p).vocab.total = p.vocab.total + 1 ∧
    (recordVocab fb p).exam = p.exam ∧
    (((recordVocab fb p).vocab.correct = p.vocab.correct ∧
      (recordVocab fb p).vocab.partialCount = p.vocab.partialCount ∧
      (recordVocab fb p).vocab.incorrect = p.vocab.incorrect) ∨
     ((recordVocab fb p).vocab.correct = p.vocab.correct + 1 ∧
      (recordVocab fb p).vocab.partialCount = p.vocab.partialCount ∧
      (recordVocab fb p).vocab.incorrect = p.vocab.incorrect) ∨
     ((recordVocab fb p).vocab.correct = p.vocab.correct ∧
      (recordVocab fb p).vocab.partialCount = p.vocab.partialCount + 1 ∧
      (recordVocab fb p).vocab.incorrect = p.vocab.incorrect) ∨
     ((recordVocab fb p).vocab.correct = p.vocab.correct ∧
      (recordVocab fb p).vocab.partialCount = p.vocab.partialCount ∧
      (recordVocab fb p).vocab.incorrect = p.vocab.incorrect + 1)) := by
  by_cases h1 : parse_vocab_score fb = some "correct"
  · refine ⟨by simp [recordVocab, h1], by simp [recordVocab, h1], Or.inr (Or.inl ?_)⟩
    simp [recordVocab, h1]
  · by_cases h2 : parse_vocab_score fb = some "partially_correct"
    · refine ⟨by simp [recordVocab, h1, h2], by simp [recordVocab, h1, h2],
        Or.inr (Or.inr (Or.inl ?_))⟩
      simp [recordVocab, h1, h2]
    · by_cases h3 : parse_vocab_score fb = some "incorrect"
      · refine ⟨by simp [recordVocab, h1, h2, h3], by simp [recordVocab, h1, h2, h3],
          Or.inr (Or.inr (Or.inr ?_))⟩
        simp [recordVocab, h1, h2, h3]
      · refine ⟨by simp [recordVocab, h1, h2, h3], by simp [recordVocab, h1, h2, h3],
          Or.inl ?_⟩
        simp [recordVocab, h1, h2, h3]

/-- The bucket-sum invariant is preserved along any run of updates. -/
theorem runVocab_fold_invariant (fbs : List String) :
    ∀ p : Progress,
      p.vocab.correct + p.vocab.partialCount + p.vocab.incorrect ≤ p.vocab.total →
      (fbs.foldl (fun p fb => recordVocab fb p) p).vocab.correct
        + (fbs.foldl (fun p fb => recordVocab fb p) p).vocab.partialCount
        + (fbs.foldl (fun p fb => recordVocab fb p) p).vocab.incorrect
        ≤ (fbs.foldl (fun p fb => recordVocab fb p) p).vocab.total := by
  induction fbs with
  | nil => intro p h; exact h
  | cons fb fbs ih =>
    intro p h
    simp only [List.foldl_cons]
    apply ih
    obtain ⟨ht, _, hb⟩ := recordVocab_fields fb p
    rcases hb with ⟨h1, h2, h3⟩ | ⟨h1, h2, h3⟩ | ⟨h1, h2, h3⟩ | ⟨h1, h2, h3⟩ <;>
      rw [ht, h1, h2, h3] <;> omega

/-! ## The claims -/

/-- Claim C9: for all six levels A0, A1, A2, B1, B2, C1, `normalize_level`
maps A0 to A1 and is the identity on the other five. -/
theorem normalize_level_spec :
    normalize_level "A0" = "A1" ∧ normalize_level "A1" = "A1" ∧
    normalize_level "A2" = "A2" ∧ normalize_level "B1" = "B1" ∧
    normalize_level "B2" = "B2" ∧ normalize_level "C1" = "C1" := by
  decide

/-- Claim C4: on any input text in which no recognizable tag marker occurs
(neither the substring "SCORE:" nor "LEVEL:"), all three parse functions
return absent.  They are total Lean functions over total scanning
primitives, so no execution can raise. -/
theorem parsers_absent_without_tags (text : String)
    (hs : containsPat ("SCORE:".data) text.data = false)
    (hl : containsPat ("LEVEL:".data) text.data = false) :
    parse_vocab_score text = none ∧ parse_exam_score text = none ∧
    parse_exam_level text = none := by
  refine ⟨?_, ?_, ?_⟩
  · unfold parse_vocab_score
    rw [reSearch_eq_none _ _ _ hs]
    rfl
  · unfold parse_exam_score
    rw [reSearch_eq_none _ _ _ hs]
    rfl
  · unfold parse_exam_level
    rw [reSearch_eq_none _ _ _ hl]
    rfl

/-- Witness for C4 at a concrete tagless text. -/
theorem parsers_absent_without_tags_witness :
    containsPat ("SCORE:".data) ("Das war gut, weiter so!".data) = false ∧
    containsPat ("LEVEL:".data) ("Das war gut, weiter so!".data) = false ∧
    parse_vocab_score "Das war gut, weiter so!" = none :=
  ⟨by decide, by decide,
    (parsers_absent_without_tags "Das war gut, weiter so!" (by decide) (by decide)).1⟩

/-- Claim C3: if the oracle call fails at any point inside an iteration
(task generation or evaluation), the iteration aborts and every counter —
vocabulary total/correct/partial/incorrect and every exam attempt counter —
is exactly what it was before the iteration began. -/
theorem oracle_failure_preserves_stats :
    (∀ t e a p q, vocabIteration t e a p = IterOutcome.failed q → q = p) ∧
    (∀ k t e a p q, examIteration k t e a p = IterOutcome.failed q → q = p) := by
  constructor
  · intro t e a p q h
    cases t with
    | oracleUnavailable =>
      simp only [vocabIteration] at h
      injection h with h'
      exact h'.symm
    | ok task =>
      simp only [vocabIteration] at h
      by_cases hs : isExitSentinel (pyStripStr a) = true
      · rw [if_pos hs] at h
        exact absurd h (by simp)
      · rw [if_neg hs] at h
        cases e with
        | oracleUnavailable =>
          injection h with h'
          exact h'.symm
        | ok fb => exact absurd h (by simp)
  · intro k t e a p q h
    cases t with
    | oracleUnavailable =>
      simp only [examIteration] at h
      injection h with h'
      exact h'.symm
    | ok task =>
      simp only [examIteration] at h
      by_cases hs : isExitSentinel (pyStripStr a) = true
      · rw [if_pos hs] at h
        exact absurd h (by simp)
      · rw [if_neg hs] at h
        cases e with
        | oracleUnavailable =>
          injection h with h'
          exact h'.symm
        | ok fb => exact absurd h (by simp)

/-- Witness for C3: a concrete failed task call leaves the initial state
untouched. -/
theorem oracle_failure_preserves_stats_witness :
    vocabIteration Completion.oracleUnavailable (Completion.ok "SCORE: correct") "cat"
      initialProgress = IterOutcome.failed initialProgress ∧
    initialProgress = initialProgress :=
  ⟨by decide,
    oracle_failure_preserves_stats.1 Completion.oracleUnavailable
      (Completion.ok "SCORE: correct") "cat" initialProgress initialProgress (by decide)⟩

/-- Claim C5: the vocabulary update increments `total` always, plus exactly
the bucket matching the parsed score; with an absent score only `total`
moves; the exam counters never move. -/
theorem recordVocab_spec (fb : String) (p : Progress) :
    (recordVocab fb p).vocab.total = p.vocab.total + 1 ∧
    (recordVocab fb p).exam = p.exam ∧
    (parse_vocab_score fb = some "correct" →
      (recordVocab fb p).vocab.correct = p.vocab.correct + 1 ∧
      (recordVocab fb p).vocab.partialCount = p.vocab.partialCount ∧
      (recordVocab fb p).vocab.incorrect = p.vocab.incorrect) ∧
    (parse_vocab_score fb = some "partially_correct" →
      (recordVocab fb p).vocab.correct = p.vocab.correct ∧
      (recordVocab fb p).vocab.partialCount = p.vocab.partialCount + 1 ∧
      (recordVocab fb p).vocab.incorrect = p.vocab.incorrect) ∧
    (parse_vocab_score fb = some "incorrect" →
      (recordVocab fb p).vocab.correct = p.vocab.correct ∧
      (recordVocab fb p).vocab.partialCount = p.vocab.partialCount ∧
      (recordVocab fb p).vocab.incorrect = p.vocab.incorrect + 1) ∧
    (parse_vocab_score fb = none →
      (recordVocab fb p).vocab.correct = p.vocab.correct ∧
      (recordVocab fb p).vocab.partialCount = p.vocab.partialCount ∧
      (recordVocab fb p).vocab.incorrect = p.vocab.incorrect) := by
  by_cases h1 : parse_vocab_score fb = some "correct"
  · simp [recordVocab, h1]
  · by_cases h2 : parse_vocab_score fb = some "partially_correct"
    · simp [recordVocab, h1, h2]
    · by_cases h3 : parse_vocab_score fb = some "incorrect"
      · simp [recordVocab, h1, h2, h3]
      · simp [recordVocab, h1, h2, h3]

/-- Witness for C5, realizing Scenario 1: a first evaluation ending in
"SCORE: correct" yields total=1, correct=1, partial=0, incorrect=0. -/
theorem recordVocab_spec_witness :
    parse_vocab_score "Richtig!\nSCORE: correct" = some "correct" ∧
    (recordVocab "Richtig!\nSCORE: correct" initialProgress).vocab.total
      = initialProgress.vocab.total + 1 ∧
    ((recordVocab "Richtig!\nSCORE: correct" initialProgress).vocab.correct
        = initialProgress.vocab.correct + 1 ∧
      (recordVocab "Richtig!\nSCORE: correct" initialProgress).vocab.partialCount
        = initialProgress.vocab.partialCount ∧
      (recordVocab "Richtig!\nSCORE: correct" initialProgress).vocab.incorrect
        = initialProgress.vocab.incorrect) :=
  ⟨by decide, (recordVocab_spec _ _).1,
    (recordVocab_spec "Richtig!\nSCORE: correct" initialProgress).2.2.1 (by decide)⟩

/-- Claim C6: a completed evaluation round in an exam mode increments the
matching attempt counter by exactly one, unconditionally — whatever the
evaluation text contained (score tag present or not, any fraction value) —
and touches no other counter. -/
theorem recordExamAttempt_spec (k : ExamKind) (t e : Completion) (a : String)
    (ans : String) (p q : Progress)
    (h : examIteration k t e a p = IterOutcome.continued ans q) :
    examCounter k q.exam = examCounter k p.exam + 1 ∧
    q.vocab = p.vocab ∧
    ∀ k2 : ExamKind, k2 ≠ k → examCounter k2 q.exam = examCounter k2 p.exam := by
  cases t with
  | oracleUnavailable => exact absurd h (by simp [examIteration])
  | ok task =>
    simp only [examIteration] at h
    by_cases hs : isExitSentinel (pyStripStr a) = true
    · rw [if_pos hs] at h
      exact absurd h (by simp)
    · rw [if_neg hs] at h
      cases e with
      | oracleUnavailable => exact absurd h (by simp)
      | ok fb =>
        injection h with h1 h2
        subst h2
        refine ⟨?_, rfl, ?_⟩
        · cases k <;> simp [examCounter, recordExamAttempt]
        · intro k2 hk
          cases k <;> cases k2 <;>
            simp_all [examCounter, recordExamAttempt]

/-- Witness for C6, realizing Scenario 2: a listening round whose feedback
ends in "SCORE: 3/5" bumps listening_attempts from 0 to 1. -/
theorem recordExamAttempt_spec_witness :
    examIteration ExamKind.listening (Completion.ok "AUDIO: ...") (Completion.ok "SCORE: 3/5")
        "1B 2D 3A" initialProgress
      = IterOutcome.continued "1B 2D 3A"
          { vocab := { total := 0, correct := 0, partialCount := 0, incorrect := 0 },
            exam := { listening_attempts := 1, reading_attempts := 0,
                      writing_attempts := 0, speaking_attempts := 0 } } ∧
    examCounter ExamKind.listening
        { listening_attempts := 1, reading_attempts := 0,
          writing_attempts := 0, speaking_attempts := 0 }
      = examCounter ExamKind.listening initialProgress.exam + 1 :=
  ⟨by decide,
    (recordExamAttempt_spec ExamKind.listening (Completion.ok "AUDIO: ...")
      (Completion.ok "SCORE: 3/5") "1B 2D 3A" "1B 2D 3A" initialProgress
      { vocab := { total := 0, correct := 0, partialCount := 0, incorrect := 0 },
        exam := { listening_attempts := 1, reading_attempts := 0,
                  writing_attempts := 0, speaking_attempts := 0 } } (by decide)).1⟩

/-- Claim C8, counterexample: the typed input is stripped before the
sentinel comparison, so " q " — which is none of the three sentinel strings
`q`, `quit`, `exit` — nevertheless triggers the exit transition rather than
being treated as answer text; and " hi " is not passed on verbatim: the
evaluation receives the stripped "hi". -/
theorem exit_sentinel_verbatim_cex :
    vocabIteration (Completion.ok "WORD: Haus") (Completion.ok "SCORE: correct") " q "
        initialProgress = IterOutcome.exited initialProgress ∧
    vocabIteration (Completion.ok "WORD: Haus") (Completion.ok "SCORE: correct") " hi "
        initialProgress
      = IterOutcome.continued "hi"
          (recordVocab "SCORE: correct" initialProgress) := by
  constructor
  · decide
  · decide

/-- Claim C8 (amended): the typed input is first stripped of surrounding
whitespace (`input(...).strip()`); if the stripped text equals `q`, `quit`
or `exit` case-insensitively, the loop exits with every counter unchanged
(the evaluation call is never made); any other stripped input — including
the empty string — becomes, verbatim, the answer text sent to evaluation,
and the iteration completes. -/
theorem exit_sentinel_spec (k : ExamKind) (task fb raw : String) (e : Completion)
    (p : Progress) :
    (isExitSentinel (pyStripStr raw) = true →
      vocabIteration (Completion.ok task) e raw p = IterOutcome.exited p ∧
      examIteration k (Completion.ok task) e raw p = IterOutcome.exited p) ∧
    (isExitSentinel (pyStripStr raw) = false →
      vocabIteration (Completion.ok task) (Completion.ok fb) raw p
        = IterOutcome.continued (pyStripStr raw) (recordVocab fb p) ∧
      examIteration k (Completion.ok task) (Completion.ok fb) raw p
        = IterOutcome.continued (pyStripStr raw)
            { p with exam := recordExamAttempt k p.exam }) := by
  constructor
  · intro hs
    exact ⟨by simp [vocabIteration, hs], by simp [examIteration, hs]⟩
  · intro hs
    exact ⟨by simp [vocabIteration, hs], by simp [examIteration, hs]⟩

/-- Witness for amended C8: " Q " (case-insensitive, stripped) exits with
stats untouched; the empty string is a valid verbatim answer. -/
theorem exit_sentinel_spec_witness :
    isExitSentinel (pyStripStr " Q ") = true ∧
    vocabIteration (Completion.ok "WORD: Haus") Completion.oracleUnavailable " Q "
      initialProgress = IterOutcome.exited initialProgress ∧
    isExitSentinel (pyStripStr "") = false ∧
    vocabIteration (Completion.ok "WORD: Haus") (Completion.ok "SCORE: incorrect") ""
        initialProgress
      = IterOutcome.continued (pyStripStr "")
          (recordVocab "SCORE: incorrect" initialProgress) :=
  ⟨by decide,
    ((exit_sentinel_spec ExamKind.listening "WORD: Haus" "SCORE: incorrect" " Q "
        Completion.oracleUnavailable initialProgress).1 (by decide)).1,
    by decide,
    ((exit_sentinel_spec ExamKind.listening "WORD: Haus" "SCORE: incorrect" ""
        (Completion.ok "SCORE: incorrect") initialProgress).2 (by decide)).1⟩

/-- Claim C10: starting from the all-zero state, after any sequence of
end-of-iteration vocabulary updates the bucket sum never exceeds `total`;
and each single update adds exactly 1 to `total` while moving at most one
of the three buckets, by exactly 1. -/
theorem vocab_stats_invariant (fbs : List String) (fb : String) (p : Progress) :
    ((runVocab fbs).vocab.correct + (runVocab fbs).vocab.partialCount
        + (runVocab fbs).vocab.incorrect ≤ (runVocab fbs).vocab.total) ∧
    (recordVocab fb p).vocab.total = p.vocab.total + 1 ∧
    (((recordVocab fb p).vocab.correct = p.vocab.correct ∧
      (recordVocab fb p).vocab.partialCount = p.vocab.partialCount ∧
      (recordVocab fb p).vocab.incorrect = p.vocab.incorrect) ∨
     ((recordVocab fb p).vocab.correct = p.vocab.correct + 1 ∧
      (recordVocab fb p).vocab.partialCount = p.vocab.partialCount ∧
      (recordVocab fb p).vocab.incorrect = p.vocab.incorrect) ∨
     ((recordVocab fb p).vocab.correct = p.vocab.correct ∧
      (recordVocab fb p).vocab.partialCount = p.vocab.partialCount + 1 ∧
      (recordVocab fb p).vocab.incorrect = p.vocab.incorrect) ∨
     ((recordVocab fb p).vocab.correct = p.vocab.correct ∧
      (recordVocab fb p).vocab.partialCount = p.vocab.partialCount ∧
      (recordVocab fb p).vocab.incorrect = p.vocab.incorrect + 1)) := by
  refine ⟨?_, (recordVocab_fields fb p).1, (recordVocab_fields fb p).2.2⟩
  exact runVocab_fold_invariant fbs initialProgress (by decide)

/-- Claim C1, counterexample: tag matching is case-sensitive, not
case-insensitive.  The claim asserts the lowercase tag line "word: Haus"
yields "Haus"; the code's `re.search(r"WORD:\s*(.+)", ...)` has no
IGNORECASE flag and does not match it at all, while the uppercase spelling
does. -/
theorem extractField_case_cex :
    extractField "word: Haus" "WORD" = none ∧
    extractField "WORD: Haus" "WORD" = some "Haus" :=
  ⟨by decide, by decide⟩

/-- Claim C1 (amended): `extractField` matches the tag case-sensitively.
For every text of the form `pre ++ "TAG:" ++ ws ++ v ++ post` where the tag
does not start anywhere inside `pre`, `ws` is whitespace, and `v` is a
nonempty remainder-of-line starting with a non-whitespace character
(`post` resumes at a newline or is empty), the result is `v` trimmed; and
on any text in which `TAG:` does not occur at all the result is absent. -/
theorem extractField_spec (tag : String) (text pre ws v post : List Char)
    (htext : text = pre ++ ((tag.data ++ [':']) ++ (ws ++ (v ++ post))))
    (hpre : ∀ i, i < pre.length →
      (tag.data ++ [':']).isPrefixOf (List.drop i text) = false)
    (hws : ∀ c ∈ ws, pyWs c = true)
    (hv : v ≠ [])
    (hvh : pyWs v.headI = false)
    (hvnl : ∀ c ∈ v, c ≠ '\n')
    (hpost : post = [] ∨ post.headI = '\n') :
    extractField (String.mk text) tag = some (String.mk (pyStrip v)) ∧
    ∀ t2 : String, containsPat (tag.data ++ [':']) t2.data = false →
      extractField t2 tag = none := by
  subst htext
  constructor
  · have hrest : v ++ post = [] ∨ pyWs (v ++ post).headI = false := by
      cases v with
      | nil => exact absurd rfl hv
      | cons a v' => exact Or.inr (by simpa using hvh)
    have hk : dotPlusAt (v ++ post) = some v := dotPlusAt_eq v post hv hvnl hpost
    have hsearch := reSearch_ws_tag (tag.data ++ [':']) dotPlusAt pre ws (v ++ post) v
      (by simp) hpre hws hrest hk
    show (reSearch (tag.data ++ [':']) (wsStarThen dotPlusAt)
        (pre ++ ((tag.data ++ [':']) ++ (ws ++ (v ++ post))))).map
        (fun w => String.mk (pyStrip w)) = some (String.mk (pyStrip v))
    rw [hsearch]
    rfl
  · intro t2 h2
    show (reSearch (tag.data ++ [':']) (wsStarThen dotPlusAt) t2.data).map
        (fun w => String.mk (pyStrip w)) = none
    rw [reSearch_eq_none _ _ _ h2]
    rfl

/-- Witness for amended C1: the uppercase tag in a larger body is found and
its value returned trimmed. -/
theorem extractField_spec_witness :
    (∀ i, i < ("Intro\n".data).length →
      ("WORD".data ++ [':']).isPrefixOf
        (List.drop i ("Intro\nWORD: Haus\nSENTENCE: Er baut.".data)) = false) ∧
    extractField "Intro\nWORD: Haus\nSENTENCE: Er baut." "WORD" = some "Haus" := by
  refine ⟨by decide, ?_⟩
  exact (extractField_spec "WORD" ("Intro\nWORD: Haus\nSENTENCE: Er baut.".data)
    ("Intro\n".data) [' '] ("Haus".data) ("\nSENTENCE: Er baut.".data)
    (by decide) (by decide) (by decide) (by decide) (by decide) (by decide) (by decide)).1

/-- Claim C2, counterexample: the alternation has no word boundary, so the
non-sanctioned tokens "correctness" and "incorrectly" — which the claim
says are not accepted — are matched via their sanctioned prefixes. -/
theorem parse_vocab_score_literal_cex :
    parse_vocab_score "SCORE: correctness" = some "correct" ∧
    parse_vocab_score "SCORE: incorrectly" = some "incorrect" :=
  ⟨by decide, by decide⟩

/-- Claim C2 (amended): `parse_vocab_score` returns a score exactly when the
text contains `SCORE:` followed by whitespace and then a token that merely
BEGINS with one of the three sanctioned literals (no word boundary is
enforced); the literal returned is the first of
correct / partially_correct / incorrect that is a prefix of the remainder.
On a text with no occurrence of `SCORE:` it returns absent. -/
theorem parse_vocab_score_spec (text pre ws rest : List Char)
    (htext : text = pre ++ (("SCORE:".data) ++ (ws ++ rest)))
    (hpre : ∀ i, i < pre.length →
      ("SCORE:".data).isPrefixOf (List.drop i text) = false)
    (hws : ∀ c ∈ ws, pyWs c = true) :
    (("correct".data).isPrefixOf rest = true →
      parse_vocab_score (String.mk text) = some "correct") ∧
    (("partially_correct".data).isPrefixOf rest = true →
      parse_vocab_score (String.mk text) = some "partially_correct") ∧
    (("incorrect".data).isPrefixOf rest = true →
      parse_vocab_score (String.mk text) = some "incorrect") ∧
    ∀ t2 : String, containsPat ("SCORE:".data) t2.data = false →
      parse_vocab_score t2 = none := by
  subst htext
  refine ⟨?_, ?_, ?_, ?_⟩
  · intro h
    obtain ⟨t, rfl⟩ := exists_tail_of_isPrefixOf 'c' ("orrect".data) rest h
    have halt : vocabAltsAt ('c' :: t) = some ("correct".data) := by
      simp [vocabAltsAt, h]
    have hsearch := reSearch_ws_tag ("SCORE:".data) vocabAltsAt pre ws ('c' :: t)
      ("correct".data) (by simp) hpre hws (Or.inr (show pyWs 'c' = false by decide)) halt
    show (reSearch ("SCORE:".data) (wsStarThen vocabAltsAt)
        (pre ++ (("SCORE:".data) ++ (ws ++ ('c' :: t))))).map String.mk = some "correct"
    rw [hsearch]
    rfl
  · intro h
    obtain ⟨t, rfl⟩ := exists_tail_of_isPrefixOf 'p' ("artially_correct".data) rest h
    have hc : ("correct".data).isPrefixOf ('p' :: t) = false :=
      isPrefixOf_cons_neq 'c' 'p' ("orrect".data) t (by decide)
    have halt : vocabAltsAt ('p' :: t) = some ("partially_correct".data) := by
      simp [vocabAltsAt, hc, h]
    have hsearch := reSearch_ws_tag ("SCORE:".data) vocabAltsAt pre ws ('p' :: t)
      ("partially_correct".data) (by simp) hpre hws
      (Or.inr (show pyWs 'p' = false by decide)) halt
    show (reSearch ("SCORE:".data) (wsStarThen vocabAltsAt)
        (pre ++ (("SCORE:".data) ++ (ws ++ ('p' :: t))))).map String.mk
      = some "partially_correct"
    rw [hsearch]
    rfl
  · intro h
    obtain ⟨t, rfl⟩ := exists_tail_of_isPrefixOf 'i' ("ncorrect".data) rest h
    have hc : ("correct".data).isPrefixOf ('i' :: t) = false :=
      isPrefixOf_cons_neq 'c' 'i' ("orrect".data) t (by decide)
    have hp : ("partially_correct".data).isPrefixOf ('i' :: t) = false :=
      isPrefixOf_cons_neq 'p' 'i' ("artially_correct".data) t (by decide)
    have halt : vocabAltsAt ('i' :: t) = some ("incorrect".data) := by
      simp [vocabAltsAt, hc, hp, h]
    have hsearch := reSearch_ws_tag ("SCORE:".data) vocabAltsAt pre ws ('i' :: t)
      ("incorrect".data) (by simp) hpre hws (Or.inr (show pyWs 'i' = false by decide)) halt
    show (reSearch ("SCORE:".data) (wsStarThen vocabAltsAt)
        (pre ++ (("SCORE:".data) ++ (ws ++ ('i' :: t))))).map String.mk = some "incorrect"
    rw [hsearch]
    rfl
  · intro t2 h2
    show (reSearch ("SCORE:".data) (wsStarThen vocabAltsAt) t2.data).map String.mk = none
    rw [reSearch_eq_none _ _ _ h2]
    rfl

/-- Witness for amended C2: "SCORE: correctness" is accepted and yields
Correct. -/
theorem parse_vocab_score_spec_witness :
    ("correct".data).isPrefixOf ("correctness".data) = true ∧
    parse_vocab_score "Feedback!\nSCORE: correctness" = some "correct" := by
  refine ⟨by decide, ?_⟩
  exact (parse_vocab_score_spec ("Feedback!\nSCORE: correctness".data)
    ("Feedback!\n".data) [' '] ("correctness".data)
    (by decide) (by decide) (by decide)).1 (by decide)

/-- Claim C7: `parse_exam_score` / `parseExamFraction` accept exactly the
pattern `SCORE: <int>/<int>` and perform no bounds validation: any pair of
digit runs is returned as matched — including numerators exceeding
denominators such as 7/3 — and with no `SCORE:` occurrence the result is
absent. -/
theorem parse_exam_score_spec (text pre ws d1 d2 post : List Char)
    (htext : text = pre ++ (("SCORE:".data) ++ (ws ++ (d1 ++ '/' :: (d2 ++ post)))))
    (hpre : ∀ i, i < pre.length →
      ("SCORE:".data).isPrefixOf (List.drop i text) = false)
    (hws : ∀ c ∈ ws, pyWs c = true)
    (hd1 : d1 ≠ []) (hd1d : ∀ c ∈ d1, c.isDigit = true)
    (hd2 : d2 ≠ []) (hd2d : ∀ c ∈ d2, c.isDigit = true)
    (hpost : post = [] ∨ post.headI.isDigit = false) :
    parse_exam_score (String.mk text) = some (String.mk (d1 ++ '/' :: d2)) ∧
    parseExamFraction (String.mk text) = some (digitsToNat d1, digitsToNat d2) ∧
    ∀ t2 : String, containsPat ("SCORE:".data) t2.data = false →
      parse_exam_score t2 = none := by
  subst htext
  have hhead : pyWs (d1 ++ '/' :: (d2 ++ post)).headI = false := by
    cases d1 with
    | nil => exact absurd rfl hd1
    | cons a d1' =>
      have ha : a.isDigit = true := hd1d a (by simp)
      simpa using pyWs_eq_false_of_isDigit a ha
  have hfrac := fracAt_eq d1 d2 post hd1 hd1d hd2 hd2d hpost
  have hsearch := reSearch_ws_tag ("SCORE:".data) fracAt pre ws
    (d1 ++ '/' :: (d2 ++ post)) (d1 ++ '/' :: d2) (by simp) hpre hws
    (Or.inr hhead) hfrac
  have h1 : parse_exam_score
      (String.mk (pre ++ (("SCORE:".data) ++ (ws ++ (d1 ++ '/' :: (d2 ++ post))))))
      = some (String.mk (d1 ++ '/' :: d2)) := by
    show (reSearch ("SCORE:".data) (wsStarThen fracAt)
        (pre ++ (("SCORE:".data) ++ (ws ++ (d1 ++ '/' :: (d2 ++ post)))))).map String.mk
      = some (String.mk (d1 ++ '/' :: d2))
    rw [hsearch]
    rfl
  refine ⟨h1, ?_, ?_⟩
  · have e1 : (String.mk (d1 ++ '/' :: d2)).data = d1 ++ '/' :: d2 := rfl
    have ht1 : (d1 ++ '/' :: d2).takeWhile Char.isDigit = d1 :=
      takeWhile_all_stop Char.isDigit d1 ('/' :: d2) hd1d
        (Or.inr (show ('/').isDigit = false by decide))
    have hdrop2 : List.drop (d1.length + 1) (d1 ++ '/' :: d2) = d2 := by
      have easc : d1 ++ '/' :: d2 = (d1 ++ ['/']) ++ d2 := by simp
      have hl : (d1 ++ ['/']).length = d1.length + 1 := by simp
      rw [easc, ← hl, drop_length_append]
    have ht2 : d2.takeWhile Char.isDigit = d2 := by
      have := takeWhile_all_stop Char.isDigit d2 [] hd2d (Or.inl rfl)
      simpa using this
    simp only [parseExamFraction, h1, e1, ht1, hdrop2, ht2]
  · intro t2 h2
    show (reSearch ("SCORE:".data) (wsStarThen fracAt) t2.data).map String.mk = none
    rw [reSearch_eq_none _ _ _ h2]
    rfl

/-- Witness for C7 at the claim's own out-of-bounds example 7/3: accepted
as-is, with the pair (7, 3) recovered. -/
theorem parse_exam_score_spec_witness :
    ("Gut!\nSCORE: 7/3".data
      = "Gut!\n".data ++ ("SCORE:".data) ++ [' '] ++ ['7'] ++ '/' :: (['3'] ++ [])) ∧
    parse_exam_score "Gut!\nSCORE: 7/3" = some "7/3" ∧
    parseExamFraction "Gut!\nSCORE: 7/3" = some (7, 3) := by
  have h := parse_exam_score_spec ("Gut!\nSCORE: 7/3".data) ("Gut!\n".data) [' ']
    ['7'] ['3'] [] (by decide) (by decide) (by decide) (by decide) (by decide)
    (by decide) (by decide) (by decide)
  exact ⟨by decide, h.1, h.2.1⟩

end GermanCoach
